import Mathlib

/-!
Verification of the multimodal retrieval merge engine of
`04-multimodal-rag` (query_router.py, multi_retriever.py, generator.py),
shallowly embedded in Lean 4.

Modelling conventions:
* Python `float` scores are modelled as `Rat` (all operations used on them
  are order comparisons and field arithmetic).
* Python dicts carrying result records are modelled by the structure
  `RItem` with the five keys used by the code (`content`, `modality`,
  `metadata`, `source`, `score`); metadata dicts are modelled as
  association lists of strings (integer-valued entries such as `chunk_id`
  and `page` are stored in their string rendering — nothing in the code
  under verification computes on them).
* An LLM handle (`llm.invoke` / `llm.predict` returning a string, or
  raising) is modelled as a stub `String → Except String String`; the
  `.content`-attribute unwrapping collapses into the stub's `.ok` payload.
* A FAISS index argument (`FAISS | None`) together with its search
  function is modelled as `Option (String → Nat → Except String (List _))`:
  `none` is a missing index, and applying the stub gives either the hit
  list or the raised exception's message.
-/

namespace MultimodalRag

/-- The character `{` (written by code so that no brace occurs in a literal). -/
def lbrace : Char := Char.ofNat 123

/-- The character `}`. -/
def rbrace : Char := Char.ofNat 125

/-- One retrieved-result record, as built by `retrieve_all` in
`multi_retriever.py`: keys `content`, `modality`, `metadata`, `source`,
`score`. -/
structure RItem where
  content : String
  modality : String
  metadata : List (String × String)
  source : String
  score : Rat
deriving DecidableEq, Repr

/-- `dict.get(key, default)` on a metadata mapping. -/
def mget (m : List (String × String)) (key default : String) : String :=
  match m.find? (fun kv => kv.1 == key) with
  | some kv => kv.2
  | none => default

/-! ### merge_and_rank_results (multi_retriever.py lines 125-169) -/

/-- The de-duplication loop of `merge_and_rank_results` (lines 142-148):
walk the list keeping a set `seen_content` of content strings already
emitted; an item whose `content` is in the set is dropped, otherwise it is
appended and its content added to the set.  The Python `set[str]` is
modelled as a list of strings with membership test. -/
def dedupGo (seen : List String) : List RItem → List RItem
  | [] => []
  | r :: rs =>
    if r.content ∈ seen then dedupGo seen rs
    else r :: dedupGo (r.content :: seen) rs

/-- De-duplicate on content string, first occurrence kept (no trimming:
the code compares `r["content"]` verbatim). -/
def dedupResults (results : List RItem) : List RItem :=
  dedupGo [] results

/-- Line 153: `r["modality"] if r["modality"] in buckets else "text"` —
the bucket an item is appended to; unknown modalities land in `"text"`. -/
def bucketKey (r : RItem) : String :=
  if r.modality = "text" ∨ r.modality = "image" ∨ r.modality = "table"
  then r.modality else "text"

/-- The comparison used to sort each bucket: ascending `score`
(`bucket.sort(key=lambda x: x["score"])`, line 158). -/
def scoreLE (a b : RItem) : Prop := a.score ≤ b.score

instance : DecidableRel scoreLE := fun a b =>
  inferInstanceAs (Decidable (a.score ≤ b.score))

instance : IsTotal RItem scoreLE := ⟨fun a b => le_total a.score b.score⟩

instance : IsTrans RItem scoreLE := ⟨fun _ _ _ => le_trans⟩

/-- The bucket-building loop of lines 151-154: each item of the
de-duplicated list is appended to exactly one of the three buckets, in
list order, so each bucket is the in-order sublist of items with that
bucket key. -/
def bucketOf (key : String) (unique : List RItem) : List RItem :=
  unique.filter (fun r => bucketKey r == key)

/-- One step of the interleaving loop body (lines 164-167): at round `i`,
`buckets[modality][i]` is emitted when `i < len(buckets[modality])`. -/
def pickAt (l : List RItem) (i : Nat) : List RItem :=
  match l[i]? with
  | some x => [x]
  | none => []

/-- The index-driven interleave of lines 160-167:
`max_len = max(len(b) for b in buckets.values())`, then for each
`i in range(max_len)` emit `buckets[m][i]` for `m` in
`["text", "image", "table"]` whenever the bucket still has an `i`-th
element. -/
def interleave3 (t im tb : List RItem) : List RItem :=
  (List.range (max (max t.length im.length) tb.length)).flatMap
    (fun i => pickAt t i ++ pickAt im i ++ pickAt tb i)

/-- `merge_and_rank_results` (lines 125-169): de-duplicate on content,
split into modality buckets, sort each bucket by ascending score with a
stable sort (Python's `list.sort` is stable; `List.insertionSort` with
`scoreLE` is the same stable sort), and interleave the buckets
text → image → table.  -/
def mergeAndRankResults (results : List RItem) : List RItem :=
  let unique := dedupResults results
  let st := List.insertionSort scoreLE (bucketOf "text" unique)
  let si := List.insertionSort scoreLE (bucketOf "image" unique)
  let sb := List.insertionSort scoreLE (bucketOf "table" unique)
  interleave3 st si sb

/-- Round-robin interleaving as the spec words it: emit one item from
each non-empty bucket in the fixed rotation text, image, table, and
repeat until every bucket is exhausted. -/
def roundRobin : List RItem → List RItem → List RItem → List RItem
  | [], [], [] => []
  | [], [], x :: tb => x :: roundRobin [] [] tb
  | [], y :: im, tb => y :: (tb.take 1 ++ roundRobin [] im tb.tail)
  | x :: t, im, tb => x :: (im.take 1 ++ (tb.take 1 ++ roundRobin t im.tail tb.tail))
termination_by t im tb => t.length + im.length + tb.length
decreasing_by all_goals (simp [List.length_tail]; try omega)

/-- Rewriting an item's modality to `"text"` when it is not one of the
three known tags; known tags are untouched.  `merge_and_rank_results`
treats an unknown-modality item exactly as if it were retagged this way. -/
def retagUnknown (r : RItem) : RItem :=
  if r.modality = "text" ∨ r.modality = "image" ∨ r.modality = "table"
  then r else { r with modality := "text" }

/-! ### query_router.py -/

/-- The `QueryType` enum of query_router.py lines 36-40. -/
inductive QueryType where
  | TEXT
  | IMAGE
  | TABLE
  | ALL
deriving DecidableEq, Repr

/-- The fail-open result `[QueryType.TEXT, QueryType.IMAGE, QueryType.TABLE]`
(lines 100 and 114): ALL expands to the three concrete types. -/
def allThree : List QueryType := [QueryType.TEXT, QueryType.IMAGE, QueryType.TABLE]

/-- `QueryType(t_upper)` for the three concrete enum values (line 102);
`"ALL"` is intercepted before this call, every other string raises the
`ValueError` that line 104 swallows (modelled as `none`). -/
def qtOf : String → Option QueryType
  | "TEXT" => some QueryType.TEXT
  | "IMAGE" => some QueryType.IMAGE
  | "TABLE" => some QueryType.TABLE
  | _ => none

/-- The classification prompt of lines 43-61 after
`.format(query=query)`: `\x7b`/`\x7d` denote the literal braces kept from
the doubled braces of the template. -/
def classificationPrompt (query : String) : String :=
  "Classify this query to determine which type of document content would best answer it.\n\nQuery: "
    ++ query ++
    "\n\nChoose one or more from:\n- TEXT: The answer is likely in text paragraphs\n- IMAGE: The answer requires looking at a visual/diagram/photo\n- TABLE: The answer requires numerical data from a table or chart\n- ALL: Search all content types\n\nCommon patterns:\n- \"show me\", \"what does X look like\", \"diagram of\" → IMAGE\n- \"how many\", \"revenue\", \"statistics\", \"percentage\", \"trend\" → TABLE\n- \"explain\", \"describe\", \"what is\", \"how does\" → TEXT\n- Complex questions → ALL\n\nRespond with JSON only: \x7b\"types\": [\"TEXT\", \"TABLE\"]\x7d\n"

/-- `re.search(r"\x7b.*?\x7d", raw, re.DOTALL)` (line 88): the leftmost,
shortest match — the substring running from the first `\x7b` of the
response to the first `\x7d` after it (`None` when there is no such
pair). -/
def extractJsonCandidate (raw : String) : Option String :=
  let cs := raw.toList
  match cs.findIdx? (fun c => c == lbrace) with
  | none => none
  | some i =>
    match (cs.drop (i + 1)).findIdx? (fun c => c == rbrace) with
    | none => none
    | some j => some (String.mk ((cs.drop i).take (j + 2)))

/-- A JSON value, the result type of `json.loads`. -/
inductive JVal where
  | null
  | boolV (b : Bool)
  | numV (q : Rat)
  | strV (s : String)
  | arrV (xs : List JVal)
  | objV (kvs : List (String × JVal))

/-- JSON insignificant whitespace. -/
def isJsonWs (c : Char) : Bool :=
  c == ' ' || c == '\t' || c == '\n' || c == '\r'

/-- Drop leading JSON whitespace. -/
def skipWs (s : List Char) : List Char :=
  s.dropWhile isJsonWs

/-- Decode one JSON string body after the opening quote: returns the
decoded characters and the remainder after the closing quote.  Unescaped
control characters are rejected, as `json.loads` does in strict mode. -/
def pStringChars : List Char → Option (List Char × List Char)
  | [] => none
  | c :: rest =>
    if c == '"' then some ([], rest)
    else if c == '\\' then
      match rest with
      | [] => none
      | e :: rest2 =>
        if e == '"' || e == '\\' || e == '/' then
          (pStringChars rest2).map (fun p => (e :: p.1, p.2))
        else if e == 'b' then
          (pStringChars rest2).map (fun p => (Char.ofNat 8 :: p.1, p.2))
        else if e == 'f' then
          (pStringChars rest2).map (fun p => (Char.ofNat 12 :: p.1, p.2))
        else if e == 'n' then
          (pStringChars rest2).map (fun p => ('\n' :: p.1, p.2))
        else if e == 'r' then
          (pStringChars rest2).map (fun p => ('\r' :: p.1, p.2))
        else if e == 't' then
          (pStringChars rest2).map (fun p => ('\t' :: p.1, p.2))
        else if e == 'u' then
          match rest2 with
          | h1 :: h2 :: h3 :: h4 :: rest3 =>
            if h1.isDigit ∨ ('a' ≤ h1 ∧ h1 ≤ 'f') ∨ ('A' ≤ h1 ∧ h1 ≤ 'F') then
              if (h2.isDigit ∨ ('a' ≤ h2 ∧ h2 ≤ 'f') ∨ ('A' ≤ h2 ∧ h2 ≤ 'F')) ∧
                 (h3.isDigit ∨ ('a' ≤ h3 ∧ h3 ≤ 'f') ∨ ('A' ≤ h3 ∧ h3 ≤ 'F')) ∧
                 (h4.isDigit ∨ ('a' ≤ h4 ∧ h4 ≤ 'f') ∨ ('A' ≤ h4 ∧ h4 ≤ 'F')) then
                (pStringChars rest3).map (fun p => (Char.ofNat 63 :: p.1, p.2))
              else none
            else none
          | _ => none
        else none
    else if c.toNat < 32 then none
    else (pStringChars rest).map (fun p => (c :: p.1, p.2))

/-- Parse the digits of a JSON number (value is irrelevant downstream,
only parse success matters; the numeric value is still computed). -/
def pDigits (s : List Char) : List Char × List Char :=
  (s.takeWhile Char.isDigit, s.dropWhile Char.isDigit)

/-- Natural-number value of a digit run. -/
def digitsVal (ds : List Char) : Nat :=
  ds.foldl (fun acc d => acc * 10 + (d.toNat - 48)) 0

/-- Parse a JSON number the way Python's scanner regex
`(-?(?:0|[1-9]\d*))(\.\d+)?([eE][-+]?\d+)?` does: the integer part is
mandatory (a leading `0` matches alone), the fraction and exponent groups
are optional and, when their digits are missing, simply do not match —
the leftover characters stay in the stream for the caller to reject.
Python also accepts the constants `NaN`, `Infinity` and `-Infinity`;
they carry no usable numeric value here (nothing downstream reads the
value of a parsed number), so they are represented by `0`. -/
def pNumber (s : List Char) : Option (Rat × List Char) :=
  let (neg, s1) :=
    match s with
    | '-' :: rest => (true, rest)
    | _ => (false, s)
  match s1 with
  | 'I' :: 'n' :: 'f' :: 'i' :: 'n' :: 'i' :: 't' :: 'y' :: rest =>
    some (0, rest)
  | _ =>
    let (intDs, s2) :=
      match s1 with
      | '0' :: rest => (['0'], rest)
      | _ => pDigits s1
    if intDs = [] then
      if neg then none
      else
        match s1 with
        | 'N' :: 'a' :: 'N' :: rest => some (0, rest)
        | _ => none
    else
      let intPart : Rat := (digitsVal intDs : Nat)
      let (base, s3) : Rat × List Char :=
        match s2 with
        | '.' :: rest =>
          let (fracDs, s4) := pDigits rest
          if fracDs = [] then (intPart, '.' :: rest)
          else (intPart + (digitsVal fracDs : Rat) / ((10 : Rat) ^ fracDs.length), s4)
        | _ => (intPart, s2)
      let (scaled, s5) : Rat × List Char :=
        match s3 with
        | e :: rest =>
          if e == 'e' || e == 'E' then
            let (eneg, s4) :=
              match rest with
              | '-' :: rest2 => (true, rest2)
              | '+' :: rest2 => (false, rest2)
              | _ => (false, rest)
            let (expDs, s5) := pDigits s4
            if expDs = [] then (base, e :: rest)
            else if eneg then (base / (10 : Rat) ^ digitsVal expDs, s5)
            else (base * (10 : Rat) ^ digitsVal expDs, s5)
          else (base, e :: rest)
        | [] => (base, [])
      some (if neg then -scaled else scaled, s5)

mutual

/-- Parse one JSON value; `fuel` bounds the nesting depth (a fuel of
`input length + 2` can never be exhausted on a real input). -/
def pVal : Nat → List Char → Option (JVal × List Char)
  | 0, _ => none
  | fuel + 1, s =>
    match skipWs s with
    | [] => none
    | c :: rest =>
      if c == '"' then
        (pStringChars rest).map (fun p => (JVal.strV (String.mk p.1), p.2))
      else if c == lbrace then pMembers fuel (skipWs rest) true []
      else if c == '[' then pElems fuel (skipWs rest) true []
      else if c == 't' then
        match rest with
        | 'r' :: 'u' :: 'e' :: rest2 => some (JVal.boolV true, rest2)
        | _ => none
      else if c == 'f' then
        match rest with
        | 'a' :: 'l' :: 's' :: 'e' :: rest2 => some (JVal.boolV false, rest2)
        | _ => none
      else if c == 'n' then
        match rest with
        | 'u' :: 'l' :: 'l' :: rest2 => some (JVal.null, rest2)
        | _ => none
      else
        (pNumber (c :: rest)).map (fun p => (JVal.numV p.1, p.2))

/-- Parse array elements after `[` (whitespace already skipped);
`first = true` while no element has been consumed, so `]` closes an empty
array there but demands a preceding comma later. -/
def pElems : Nat → List Char → Bool → List JVal → Option (JVal × List Char)
  | 0, _, _, _ => none
  | fuel + 1, s, first, acc =>
    match skipWs s with
    | [] => none
    | c :: rest =>
      if c == ']' ∧ first then some (JVal.arrV acc.reverse, rest)
      else
        match pVal fuel (c :: rest) with
        | none => none
        | some (v, after) =>
          match skipWs after with
          | ']' :: rest2 => some (JVal.arrV (v :: acc).reverse, rest2)
          | ',' :: rest2 => pElems fuel rest2 false (v :: acc)
          | _ => none

/-- Parse object members after the opening brace (whitespace already
skipped). -/
def pMembers : Nat → List Char → Bool → List (String × JVal) →
    Option (JVal × List Char)
  | 0, _, _, _ => none
  | fuel + 1, s, first, acc =>
    match skipWs s with
    | [] => none
    | c :: rest =>
      if c == rbrace ∧ first then some (JVal.objV acc.reverse, rest)
      else if c == '"' then
        match pStringChars rest with
        | none => none
        | some (key, afterKey) =>
          match skipWs afterKey with
          | ':' :: afterColon =>
            match pVal fuel afterColon with
            | none => none
            | some (v, after) =>
              match skipWs after with
              | ',' :: rest2 => pMembers fuel rest2 false ((String.mk key, v) :: acc)
              | d :: rest2 =>
                if d == rbrace then some (JVal.objV ((String.mk key, v) :: acc).reverse, rest2)
                else none
              | _ => none
          | _ => none
      else none

end

/-- `json.loads` on the extracted candidate: parse one value and require
only whitespace to remain. -/
def jsonLoads (s : String) : Option JVal :=
  match pVal (s.length + 2) s.toList with
  | none => none
  | some (v, rest) => if skipWs rest = [] then some v else none

/-- Python dicts keep the *last* value for a duplicated JSON key. -/
def objGet (kvs : List (String × JVal)) (key : String) : Option JVal :=
  (kvs.reverse).find? (fun kv => kv.1 == key) |>.map (fun kv => kv.2)

/-- The key sequence of a Python dict built from possibly-duplicated JSON
pairs: first-insertion order, duplicates dropped. -/
def dedupStr (ks : List String) : List String :=
  go [] ks
where
  go (seen : List String) : List String → List String
    | [] => []
    | k :: rest => if k ∈ seen then go seen rest else k :: go (k :: seen) rest

/-- Python's `str.upper()` (ASCII-relevant behaviour). -/
def pyUpper (s : String) : String :=
  String.mk (s.toList.map Char.toUpper)

/-- The loop over `type_strings` of lines 95-109:
* a `"ALL"` entry (case-insensitively) returns all three types at once;
* entries naming a concrete `QueryType` accumulate;
* other string entries are skipped (`ValueError` at line 102 is swallowed);
* a non-string entry raises (`.upper()` on a non-string), which the outer
  handler turns into all three types — as does an empty accumulation at
  the end (line 107). -/
def loopTypes : List JVal → List QueryType → List QueryType
  | [], acc => if acc = [] then allThree else acc
  | JVal.strV t :: rest, acc =>
    if pyUpper t = "ALL" then allThree
    else
      match qtOf (pyUpper t) with
      | some q => loopTypes rest (acc ++ [q])
      | none => loopTypes rest acc
  | _ :: _, _ => allThree

/-- Lines 92-109 applied to a parsed JSON value: `parsed.get("types",
["ALL"])` followed by the accumulation loop.  A missing `"types"` key
defaults to `["ALL"]`, i.e. all three types; a `"types"` value that is not
an array of values raises when iterated or uppercased, and the outer
handler again yields all three (a string value iterates over its
single-character substrings, none of which names a type, which also ends
in the all-three fallback). -/
def classifyParsed : JVal → List QueryType
  | JVal.objV kvs =>
    match objGet kvs "types" with
    | none => allThree
    | some (JVal.arrV elems) => loopTypes elems []
    | some (JVal.objV kvs2) =>
      -- iterating a dict yields its keys, in first-insertion order
      loopTypes ((dedupStr (kvs2.map Prod.fst)).map JVal.strV) []
    | some _ => allThree
  | _ => allThree

/-- `classify_query` (query_router.py lines 64-114) against an LLM stub:
the stub maps the prompt to the raw response text or to the message of a
raised exception; any failure on the way to at least one valid query type
falls back to all three modalities. -/
def classifyQuery (query : String) (llm : String → Except String String) :
    List QueryType :=
  match llm (classificationPrompt query) with
  | Except.error _ => allThree
  | Except.ok raw =>
    match extractJsonCandidate raw with
    | none => allThree
    | some candidate =>
      match jsonLoads candidate with
      | none => allThree
      | some v => classifyParsed v

/-! ### retrieve_all (multi_retriever.py lines 46-122) -/

/-- A `(Document, score)` pair returned by `search_text`. -/
structure TextHit where
  pageContent : String
  metadata : List (String × String)
  score : Rat
deriving DecidableEq, Repr

/-- A result dict returned by `search_images`. -/
structure ImageHit where
  caption : String
  imagePath : String
  imageType : String
  score : Rat
deriving DecidableEq, Repr

/-- A result dict returned by `search_tables` (`page` is carried in its
string rendering, nothing computes on it). -/
structure TableHit where
  description : String
  tableId : String
  csvPath : String
  page : String
  score : Rat
deriving DecidableEq, Repr

/-- Lines 81-89: the record appended for one text hit. -/
def textHitItem (h : TextHit) : RItem :=
  { content := h.pageContent
    modality := "text"
    metadata := h.metadata
    source := "text_chunk_" ++ mget h.metadata "chunk_id" "?"
    score := h.score }

/-- Lines 93-104: the record appended for one image hit. -/
def imageHitItem (h : ImageHit) : RItem :=
  { content := h.caption
    modality := "image"
    metadata := [("image_path", h.imagePath), ("image_type", h.imageType)]
    source := h.imagePath
    score := h.score }

/-- Lines 108-120: the record appended for one table hit. -/
def tableHitItem (h : TableHit) : RItem :=
  { content := h.description
    modality := "table"
    metadata := [("table_id", h.tableId), ("csv_path", h.csvPath), ("page", h.page)]
    source := h.tableId
    score := h.score }

/-- An index argument together with its search function: `none` models a
`None` index (branch skipped); applying the stub models the
`search_*` call, which either returns the hit list or raises. -/
def SearchStub (α : Type) : Type := Option (String → Nat → Except String (List α))

/-- Lines 79-89: the text block of `retrieve_all`.  There is no
`try`/`except` around the search call — a raised exception propagates. -/
def textStage (queryTypes : List QueryType) (textIndex : SearchStub TextHit)
    (query : String) (k : Nat) : Except String (List RItem) :=
  if QueryType.TEXT ∈ queryTypes then
    match textIndex with
    | some search => (search query k).map (fun hits => hits.map textHitItem)
    | none => Except.ok []
  else Except.ok []

/-- Lines 91-104: the image block of `retrieve_all`. -/
def imageStage (queryTypes : List QueryType) (imageIndex : SearchStub ImageHit)
    (query : String) (k : Nat) : Except String (List RItem) :=
  if QueryType.IMAGE ∈ queryTypes then
    match imageIndex with
    | some search => (search query k).map (fun hits => hits.map imageHitItem)
    | none => Except.ok []
  else Except.ok []

/-- Lines 106-120: the table block of `retrieve_all`. -/
def tableStage (queryTypes : List QueryType) (tableIndex : SearchStub TableHit)
    (query : String) (k : Nat) : Except String (List RItem) :=
  if QueryType.TABLE ∈ queryTypes then
    match tableIndex with
    | some search => (search query k).map (fun hits => hits.map tableHitItem)
    | none => Except.ok []
  else Except.ok []

/-- `retrieve_all` (lines 46-122): the three blocks run in order and
append to one list; an exception raised by a search call aborts the whole
function at that point (no per-index handler exists in the code). -/
def retrieveAll (query : String) (queryTypes : List QueryType)
    (textIndex : SearchStub TextHit) (imageIndex : SearchStub ImageHit)
    (tableIndex : SearchStub TableHit) (k : Nat) :
    Except String (List RItem) := do
  let r1 ← textStage queryTypes textIndex query k
  let r2 ← imageStage queryTypes imageIndex query k
  let r3 ← tableStage queryTypes tableIndex query k
  pure (r1 ++ r2 ++ r3)

/-! ### generator.py -/

/-- Python's `str.strip()` with no argument: drop leading and trailing
whitespace (modelled over the ASCII whitespace characters). -/
def pyWs (c : Char) : Bool :=
  c == ' ' || c == '\t' || c == '\n' || c == '\r' || c == Char.ofNat 11 || c == Char.ofNat 12

/-- `s.strip()`. -/
def pyStrip (s : String) : String :=
  String.mk (((s.toList.dropWhile pyWs).reverse.dropWhile pyWs).reverse)

/-- The four accumulator lists of the loop in generator.py lines 38-41. -/
structure GenAcc where
  textChunks : List String
  imageCaptions : List String
  tableDescriptions : List String
  imageRefs : List String
deriving DecidableEq, Repr

/-- One iteration of the loop of lines 43-56: strip the content, append
it to the list matching the modality (image results additionally record a
nonempty `image_path` when `include_image_refs` is set); unknown
modalities fall through all branches and contribute nothing. -/
def genStep (includeImageRefs : Bool) (acc : GenAcc) (r : RItem) : GenAcc :=
  let content := pyStrip r.content
  if r.modality = "text" then
    { acc with textChunks := acc.textChunks ++ [content] }
  else if r.modality = "image" then
    let acc1 := { acc with imageCaptions := acc.imageCaptions ++ [content] }
    if includeImageRefs then
      let imgPath := mget r.metadata "image_path" ""
      if imgPath ≠ "" then { acc1 with imageRefs := acc1.imageRefs ++ [imgPath] }
      else acc1
    else acc1
  else if r.modality = "table" then
    { acc with tableDescriptions := acc.tableDescriptions ++ [content] }
  else acc

/-- The whole separation loop of lines 37-56. -/
def genFold (includeImageRefs : Bool) (results : List RItem) : GenAcc :=
  results.foldl (genStep includeImageRefs) ⟨[], [], [], []⟩

/-- The stripped text contents in input order (what the loop is proved to
collect into `textChunks`). -/
def genTexts (results : List RItem) : List String :=
  (results.filter (fun r => r.modality == "text")).map (fun r => pyStrip r.content)

/-- The stripped image captions in input order. -/
def genImages (results : List RItem) : List String :=
  (results.filter (fun r => r.modality == "image")).map (fun r => pyStrip r.content)

/-- The stripped table descriptions in input order. -/
def genTables (results : List RItem) : List String :=
  (results.filter (fun r => r.modality == "table")).map (fun r => pyStrip r.content)

/-- The nonempty image paths of image results in input order. -/
def genRefs (results : List RItem) : List String :=
  ((results.filter (fun r => r.modality == "image")).map
    (fun r => mget r.metadata "image_path" "")).filter (fun p => p ≠ "")

/-- Line 59: the `[TEXT]` section. -/
def textSection (includeImageRefs : Bool) (results : List RItem) : String :=
  let chunks := (genFold includeImageRefs results).textChunks
  if chunks = [] then "No text context available."
  else String.intercalate "\n\n" chunks

/-- Line 60: the `[IMAGE DESCRIPTIONS]` section. -/
def imageSection (includeImageRefs : Bool) (results : List RItem) : String :=
  let captions := (genFold includeImageRefs results).imageCaptions
  if captions = [] then "No image context available."
  else String.intercalate "\n\n" captions

/-- Line 61: the `[TABLE DATA]` section. -/
def tableSection (includeImageRefs : Bool) (results : List RItem) : String :=
  let descs := (genFold includeImageRefs results).tableDescriptions
  if descs = [] then "No table context available."
  else String.intercalate "\n\n" descs

/-- The full prompt of lines 64-80. -/
def buildGenPrompt (query : String) (results : List RItem)
    (includeImageRefs : Bool) : String :=
  "Answer the following question based on the provided context from a document.\nThe context includes text, image descriptions, and table data.\n\nContext:\n[TEXT]\n"
    ++ textSection includeImageRefs results
    ++ "\n\n[IMAGE DESCRIPTIONS]\n"
    ++ imageSection includeImageRefs results
    ++ "\n\n[TABLE DATA]\n"
    ++ tableSection includeImageRefs results
    ++ "\n\nQuestion: " ++ query
    ++ "\n\nAnswer (mention which type of content informed your answer — text/image/table):"

/-- `generate_answer` (generator.py lines 16-98): build the prompt, call
the LLM inside `try`/`except` (a raised exception becomes the
`"[generator] LLM call failed: ..."` string), then append the
`See image:` block when requested and nonempty. -/
def generateAnswer (query : String) (results : List RItem)
    (llm : String → Except String String) (includeImageRefs : Bool) : String :=
  let answer :=
    match llm (buildGenPrompt query results includeImageRefs) with
    | Except.ok response => pyStrip response
    | Except.error exc => "[generator] LLM call failed: " ++ exc
  let refs := (genFold includeImageRefs results).imageRefs
  if includeImageRefs ∧ refs ≠ [] then
    answer ++ "\n\n" ++ String.intercalate "\n" (refs.map (fun p => "See image: " ++ p))
  else answer

/-! ### Score normalization (spec §4.3 step 2) -/

/-- Modelled from the spec: the normalized score of one raw distance `d`
relative to the batch extrema `dmin`/`dmax` (spec §4.3 step 2).  This
step belongs to the alternative ranking discipline that
multi_retriever.py documents (lines 24-26) but does not implement; no
function in `src/` computes a `normalized_score`.  Per the spec: if
`d_max == d_min` every item scores `1.0`, otherwise
`1 - (raw_distance - d_min) / (d_max - d_min)`. -/
def normalizedScore (dmin dmax d : Rat) : Rat :=
  if dmax = dmin then 1 else 1 - (d - dmin) / (dmax - dmin)

/-- Modelled from the spec: normalize every raw distance of a non-empty
batch against that batch's own minimum and maximum (an empty batch has
nothing to normalize). -/
def normalizeBatch (batch : List Rat) : List Rat :=
  match batch with
  | [] => []
  | d0 :: rest =>
    let dmin := rest.foldr min d0
    let dmax := rest.foldr max d0
    (d0 :: rest).map (fun d => normalizedScore dmin dmax d)

/-! ### Concrete records used by witnesses and counterexamples -/

/-- A text result. -/
def itT : RItem :=
  { content := "Revenue was 5M", modality := "text",
    metadata := [("chunk_id", "0")], source := "text_chunk_0", score := 1 }

/-- A second text result. -/
def itT2 : RItem :=
  { content := "Costs rose 10 percent", modality := "text",
    metadata := [("chunk_id", "1")], source := "text_chunk_1", score := 4 }

/-- An image result. -/
def itI : RItem :=
  { content := "Bar chart shows Q4 peak", modality := "image",
    metadata := [("image_path", "img.png"), ("image_type", "chart")],
    source := "img.png", score := 3 }

/-- A table result. -/
def itB : RItem :=
  { content := "Quarterly revenue table", modality := "table",
    metadata := [("table_id", "t1"), ("csv_path", "t1.csv"), ("page", "2")],
    source := "t1", score := 2 }

/-- A table result whose content duplicates `itT` exactly. -/
def itDupTable : RItem :=
  { content := "Revenue was 5M", modality := "table",
    metadata := [("table_id", "t2"), ("csv_path", "t2.csv"), ("page", "3")],
    source := "t2", score := 5 }

/-- A text result whose content equals `itT`'s only after trimming. -/
def itPad : RItem :=
  { content := " Revenue was 5M ", modality := "text",
    metadata := [("chunk_id", "9")], source := "text_chunk_9", score := 6 }

/-- A result with a modality tag outside the three known buckets. -/
def itV : RItem :=
  { content := "A clip of the launch", modality := "video",
    metadata := [], source := "clip.mp4", score := 7 }

/-- Every case of `roundRobin` emits the heads of the non-empty buckets in
the rotation text, image, table, and recurses on the three tails. -/
theorem roundRobin_eq (t im tb : List RItem)
    (h : ¬(t = [] ∧ im = [] ∧ tb = [])) :
    roundRobin t im tb =
      t.take 1 ++ im.take 1 ++ tb.take 1 ++ roundRobin t.tail im.tail tb.tail := by
  match t, im, tb with
  | [], [], [] => exact absurd ⟨rfl, rfl, rfl⟩ h
  | [], [], x :: tb => simp [roundRobin]
  | [], y :: im, tb => simp [roundRobin]
  | x :: t, im, tb => simp [roundRobin]

theorem pickAt_zero (l : List RItem) : pickAt l 0 = l.take 1 := by
  cases l <;> simp [pickAt]

theorem pickAt_succ (l : List RItem) (i : Nat) : pickAt l (i + 1) = pickAt l.tail i := by
  cases l <;> simp [pickAt]

/-- `max_len` of the three tails is one less than `max_len` of the three
buckets (also when some buckets are already empty). -/
theorem max3_tail (t im tb : List RItem) :
    max (max t.tail.length im.tail.length) tb.tail.length =
      max (max t.length im.length) tb.length - 1 := by
  simp only [List.length_tail]
  omega

theorem interleave3_step (t im tb : List RItem)
    (h : ¬(t = [] ∧ im = [] ∧ tb = [])) :
    interleave3 t im tb =
      t.take 1 ++ im.take 1 ++ tb.take 1 ++
        interleave3 t.tail im.tail tb.tail := by
  have h1 : ¬(t.length = 0 ∧ im.length = 0 ∧ tb.length = 0) := by
    simpa [List.length_eq_zero] using h
  have hn : max (max t.length im.length) tb.length =
      (max (max t.length im.length) tb.length - 1) + 1 := by omega
  rw [interleave3, hn, List.range_succ_eq_map, List.flatMap_cons, List.flatMap_map]
  rw [interleave3, max3_tail]
  simp only [Function.comp, pickAt_succ, pickAt_zero, List.append_assoc]

theorem interleave3_eq_roundRobin (t im tb : List RItem) :
    interleave3 t im tb = roundRobin t im tb := by
  induction t, im, tb using roundRobin.induct with
  | case1 => simp [interleave3, roundRobin]
  | case2 x tb ih =>
    rw [interleave3_step _ _ _ (by simp), roundRobin_eq _ _ _ (by simp)]
    simpa using ih
  | case3 y im tb ih =>
    rw [interleave3_step _ _ _ (by simp), roundRobin_eq _ _ _ (by simp)]
    simpa using ih
  | case4 x t im tb ih =>
    rw [interleave3_step _ _ _ (by simp), roundRobin_eq _ _ _ (by simp)]
    simpa using ih

/-- Splitting a count at the first element. -/
theorem count_take_one_add_tail (l : List RItem) (a : RItem) :
    l.count a = (l.take 1).count a + l.tail.count a := by
  conv_lhs => rw [← List.take_append_drop 1 l]
  rw [List.count_append, List.drop_one]

/-- Round-robin interleaving is a permutation of the concatenated buckets. -/
theorem roundRobin_perm (t im tb : List RItem) :
    List.Perm (roundRobin t im tb) (t ++ im ++ tb) := by
  induction t, im, tb using roundRobin.induct with
  | case1 => simp [roundRobin]
  | case2 x tb ih =>
    simp only [roundRobin]
    simpa using List.Perm.cons x ih
  | case3 y im tb ih =>
    simp only [roundRobin, List.nil_append]
    refine List.Perm.cons y ?_
    refine (List.Perm.append_left _ (by simpa using ih)).trans ?_
    rw [List.perm_iff_count]
    intro a
    simp only [List.append_eq, List.count_append]
    rw [count_take_one_add_tail tb a]
    omega
  | case4 x t im tb ih =>
    simp only [roundRobin]
    refine List.Perm.cons x ?_
    refine (List.Perm.append_left _ (List.Perm.append_left _ ih)).trans ?_
    rw [List.perm_iff_count]
    intro a
    simp only [List.append_eq, List.count_append]
    rw [count_take_one_add_tail im a, count_take_one_add_tail tb a]
    omega

/-- `bucketKey` always lands in one of the three buckets of line 151. -/
theorem bucketKey_cases (r : RItem) :
    bucketKey r = "text" ∨ bucketKey r = "image" ∨ bucketKey r = "table" := by
  unfold bucketKey
  split <;> tauto

/-- The three buckets of lines 151-154 partition the de-duplicated list. -/
theorem bucket_partition_perm (l : List RItem) :
    List.Perm (bucketOf "text" l ++ bucketOf "image" l ++ bucketOf "table" l) l := by
  rw [List.perm_iff_count]
  intro a
  simp only [List.count_append]
  have hcount : ∀ key : String, bucketKey a ≠ key →
      (bucketOf key l).count a = 0 := by
    intro key hk
    rw [List.count_eq_zero]
    intro hmem
    have := List.of_mem_filter hmem
    simp only [beq_iff_eq] at this
    exact hk this
  have hcount' : ∀ key : String, bucketKey a = key →
      (bucketOf key l).count a = l.count a := by
    intro key hk
    unfold bucketOf
    rw [List.count_filter]
    simp [← hk]
  rcases bucketKey_cases a with h | h | h
  · rw [hcount' _ h, hcount _ (by rw [h]; decide), hcount _ (by rw [h]; decide)]; omega
  · rw [hcount' _ h, hcount _ (by rw [h]; decide), hcount _ (by rw [h]; decide)]; omega
  · rw [hcount' _ h, hcount _ (by rw [h]; decide), hcount _ (by rw [h]; decide)]; omega

/-- The merged output is a permutation of the de-duplicated pool: nothing
is truncated and nothing is added by bucketing, sorting or interleaving. -/
theorem mergeAndRank_perm_dedup (results : List RItem) :
    List.Perm (mergeAndRankResults results) (dedupResults results) := by
  unfold mergeAndRankResults
  refine (interleave3_eq_roundRobin _ _ _ ▸ roundRobin_perm _ _ _).trans ?_
  refine List.Perm.trans ?_ (bucket_partition_perm (dedupResults results))
  exact ((List.perm_insertionSort scoreLE _).append
    (List.perm_insertionSort scoreLE _)).append (List.perm_insertionSort scoreLE _)

/-! ### Properties of the de-duplication loop -/

theorem dedupGo_subset {seen : List String} {l : List RItem} {x : RItem}
    (h : x ∈ dedupGo seen l) : x ∈ l := by
  induction l generalizing seen with
  | nil => simp [dedupGo] at h
  | cons r rs ih =>
    rw [dedupGo] at h
    split at h
    · exact List.mem_cons_of_mem _ (ih h)
    · rcases List.mem_cons.mp h with h | h
      · exact h ▸ List.mem_cons_self _ _
      · exact List.mem_cons_of_mem _ (ih h)

theorem dedupGo_not_seen {seen : List String} {l : List RItem} {x : RItem}
    (h : x ∈ dedupGo seen l) : x.content ∉ seen := by
  induction l generalizing seen with
  | nil => simp [dedupGo] at h
  | cons r rs ih =>
    rw [dedupGo] at h
    split at h
    · exact ih h
    · rcases List.mem_cons.mp h with h | h
      · subst h; assumption
      · intro hc
        exact ih h (List.mem_cons_of_mem _ hc)

theorem dedupGo_nodup (seen : List String) (l : List RItem) :
    ((dedupGo seen l).map RItem.content).Nodup := by
  induction l generalizing seen with
  | nil => simp [dedupGo]
  | cons r rs ih =>
    rw [dedupGo]
    split
    · exact ih seen
    · simp only [List.map_cons, List.nodup_cons]
      constructor
      · intro hc
        rcases List.mem_map.mp hc with ⟨u, hu, hcu⟩
        exact dedupGo_not_seen hu (by simp [hcu])
      · exact ih _

theorem dedupGo_covers {seen : List String} {l : List RItem} {r : RItem}
    (hmem : r ∈ l) (hns : r.content ∉ seen) :
    ∃ u ∈ dedupGo seen l, u.content = r.content := by
  induction l generalizing seen with
  | nil => simp at hmem
  | cons s rs ih =>
    rw [dedupGo]
    rcases List.mem_cons.mp hmem with h | h
    · subst h
      split
    -- r's content already seen contradicts hns when r is the head
      · exact absurd (by assumption) hns
      · exact ⟨r, List.mem_cons_self _ _, rfl⟩
    · split
      · exact ih h hns
      · rename_i hsns
        by_cases hc : r.content = s.content
        · exact ⟨s, List.mem_cons_self _ _, hc.symm⟩
        · have hns2 : r.content ∉ s.content :: seen := by simp [hc, hns]
          have ⟨u, hu, hcu⟩ := ih h hns2
          exact ⟨u, List.mem_cons_of_mem _ hu, hcu⟩

/-- Every survivor of de-duplication is the *first* item of the input that
carries its content string: the metadata retained for a duplicated content
is the first-encountered one. -/
theorem dedupGo_find? {seen : List String} {l : List RItem} {x : RItem}
    (h : x ∈ dedupGo seen l) :
    l.find? (fun y => y.content == x.content) = some x := by
  induction l generalizing seen with
  | nil => simp [dedupGo] at h
  | cons r rs ih =>
    rw [dedupGo] at h
    split at h
    · rename_i hseen
      rw [List.find?_cons_of_neg, ih h]
      have hx : x.content ∉ seen := dedupGo_not_seen h
      simp only [beq_iff_eq]
      intro hrx
      exact hx (hrx ▸ hseen)
    · rename_i hseen
      rcases List.mem_cons.mp h with h | h
      · subst h
        rw [List.find?_cons_of_pos]
        simp
      · have hx : x.content ∉ r.content :: seen := dedupGo_not_seen h
        rw [List.find?_cons_of_neg, ih h]
        simp only [beq_iff_eq]
        intro hrx
        exact hx (by simp [hrx])

/-- Heads of non-empty buckets all appear within the first three emitted
positions of the round-robin interleaving. -/
theorem roundRobin_take3 (st si sb : List RItem) :
    (∀ x ∈ st.take 1, x ∈ (roundRobin st si sb).take 3) ∧
    (∀ x ∈ si.take 1, x ∈ (roundRobin st si sb).take 3) ∧
    (∀ x ∈ sb.take 1, x ∈ (roundRobin st si sb).take 3) := by
  rcases st with _ | ⟨a, st⟩ <;> rcases si with _ | ⟨b, si⟩ <;>
    rcases sb with _ | ⟨c, sb⟩ <;> simp [roundRobin]

/-- Members of a bucket carry that bucket's key. -/
theorem mem_bucketOf {key : String} {l : List RItem} {x : RItem}
    (h : x ∈ bucketOf key l) : bucketKey x = key := by
  have := List.mem_filter.mp h
  simpa using this.2

/-- A non-empty list has its head in its one-element take. -/
theorem exists_mem_take_one {l : List RItem} (h : l ≠ []) :
    ∃ x ∈ l.take 1, x ∈ l := by
  rcases l with _ | ⟨a, l⟩
  · exact absurd rfl h
  · exact ⟨a, by simp, by simp⟩

/-- C1: `merge_and_rank_results` produces the round-robin interleaving by
modality of the de-duplicated items — the items are partitioned into
text/image/table buckets, each bucket is sorted ascending by score (raw
distance, stably), and output rotates text → image → table until all
buckets are exhausted; every modality with a surviving item is represented
within the first three output positions. -/
theorem mergeAndRank_is_roundRobin (results : List RItem) :
    (mergeAndRankResults results =
      roundRobin
        (List.insertionSort scoreLE (bucketOf "text" (dedupResults results)))
        (List.insertionSort scoreLE (bucketOf "image" (dedupResults results)))
        (List.insertionSort scoreLE (bucketOf "table" (dedupResults results)))) ∧
    (∀ key : String,
        List.Sorted scoreLE
          (List.insertionSort scoreLE (bucketOf key (dedupResults results))) ∧
        List.Perm (List.insertionSort scoreLE (bucketOf key (dedupResults results)))
          (bucketOf key (dedupResults results)) ∧
        ∀ x ∈ bucketOf key (dedupResults results), bucketKey x = key) ∧
    (∀ key : String, (key = "text" ∨ key = "image" ∨ key = "table") →
        bucketOf key (dedupResults results) ≠ [] →
        ∃ x ∈ (mergeAndRankResults results).take 3, bucketKey x = key) := by
  have hmerge : mergeAndRankResults results =
      roundRobin
        (List.insertionSort scoreLE (bucketOf "text" (dedupResults results)))
        (List.insertionSort scoreLE (bucketOf "image" (dedupResults results)))
        (List.insertionSort scoreLE (bucketOf "table" (dedupResults results))) := by
    unfold mergeAndRankResults
    exact interleave3_eq_roundRobin _ _ _
  refine ⟨hmerge, ?_, ?_⟩
  · intro key
    exact ⟨List.sorted_insertionSort scoreLE _, List.perm_insertionSort scoreLE _,
      fun x hx => mem_bucketOf hx⟩
  · intro key hkey hne
    have htri := roundRobin_take3
      (List.insertionSort scoreLE (bucketOf "text" (dedupResults results)))
      (List.insertionSort scoreLE (bucketOf "image" (dedupResults results)))
      (List.insertionSort scoreLE (bucketOf "table" (dedupResults results)))
    rcases hkey with hkey | hkey | hkey <;> subst hkey
    · have hsne : List.insertionSort scoreLE (bucketOf "text" (dedupResults results)) ≠ [] := by
        intro h0
        apply hne
        have hp := List.perm_insertionSort scoreLE (bucketOf "text" (dedupResults results))
        rw [h0] at hp
        exact hp.symm.eq_nil
      obtain ⟨x, hx1, hxmem⟩ := exists_mem_take_one hsne
      refine ⟨x, ?_, ?_⟩
      · rw [hmerge]; exact htri.1 x hx1
      · exact mem_bucketOf ((List.perm_insertionSort scoreLE _).mem_iff.mp hxmem)
    · have hsne : List.insertionSort scoreLE (bucketOf "image" (dedupResults results)) ≠ [] := by
        intro h0
        apply hne
        have hp := List.perm_insertionSort scoreLE (bucketOf "image" (dedupResults results))
        rw [h0] at hp
        exact hp.symm.eq_nil
      obtain ⟨x, hx1, hxmem⟩ := exists_mem_take_one hsne
      refine ⟨x, ?_, ?_⟩
      · rw [hmerge]; exact htri.2.1 x hx1
      · exact mem_bucketOf ((List.perm_insertionSort scoreLE _).mem_iff.mp hxmem)
    · have hsne : List.insertionSort scoreLE (bucketOf "table" (dedupResults results)) ≠ [] := by
        intro h0
        apply hne
        have hp := List.perm_insertionSort scoreLE (bucketOf "table" (dedupResults results))
        rw [h0] at hp
        exact hp.symm.eq_nil
      obtain ⟨x, hx1, hxmem⟩ := exists_mem_take_one hsne
      refine ⟨x, ?_, ?_⟩
      · rw [hmerge]; exact htri.2.2 x hx1
      · exact mem_bucketOf ((List.perm_insertionSort scoreLE _).mem_iff.mp hxmem)

/-- Witness for C1 at a concrete mixed input: the table bucket is
non-empty, so some table item sits among the first three output
positions. -/
theorem mergeAndRank_is_roundRobin_witness :
    ∃ x ∈ (mergeAndRankResults [itT, itT2, itI, itB]).take 3, bucketKey x = "table" :=
  (mergeAndRank_is_roundRobin [itT, itT2, itI, itB]).2.2 "table"
    (Or.inr (Or.inr rfl)) (by decide)

/-- C3 counterexample: the claim says de-duplication compares content
*after trimming surrounding whitespace*; the code compares the raw string,
so two items whose contents differ only in surrounding whitespace both
survive into the output. -/
theorem dedup_trimming_counterexample :
    mergeAndRankResults [itT, itPad] = [itT, itPad] ∧
    pyStrip itT.content = pyStrip itPad.content ∧
    itT.content ≠ itPad.content := by
  refine ⟨by decide, by decide, by decide⟩

/-- C3 (amended): de-duplication compares the *exact* content string (no
trimming): no two output items share identical raw content, the item kept
for a content value is the first occurrence in the flat iteration order,
so its modality and metadata are the ones retained, and no content value
is lost. -/
theorem dedup_exact_first_occurrence (results : List RItem) :
    ((mergeAndRankResults results).map RItem.content).Nodup ∧
    (∀ x ∈ mergeAndRankResults results,
      results.find? (fun y => y.content == x.content) = some x) ∧
    (∀ r ∈ results, ∃ x ∈ mergeAndRankResults results, x.content = r.content) := by
  have hperm := mergeAndRank_perm_dedup results
  refine ⟨?_, ?_, ?_⟩
  · exact ((hperm.map RItem.content).nodup_iff).mpr (dedupGo_nodup [] results)
  · intro x hx
    exact dedupGo_find? (hperm.subset hx)
  · intro r hr
    obtain ⟨u, hu, hcu⟩ := dedupGo_covers hr (List.not_mem_nil r.content)
    exact ⟨u, hperm.symm.subset hu, hcu⟩

/-- Witness for C3 (amended) at a concrete duplicated input: the text
occurrence of the duplicated content is the one retained, with its
metadata. -/
theorem dedup_exact_first_occurrence_witness :
    ((mergeAndRankResults [itT, itI, itDupTable]).map RItem.content).Nodup ∧
    [itT, itI, itDupTable].find?
      (fun y => y.content == itT.content) = some itT ∧
    (∃ x ∈ mergeAndRankResults [itT, itI, itDupTable],
      x.content = itDupTable.content) := by
  obtain ⟨h1, h2, h3⟩ := dedup_exact_first_occurrence [itT, itI, itDupTable]
  refine ⟨h1, ?_, h3 itDupTable (by decide)⟩
  exact h2 itT (by decide)

/-- C5 counterexample: nothing caps the merged list — with four distinct
retrieved items the output holds all four (there is no `k_total` argument
in `merge_and_rank_results` at all, so no cap below four is ever
applied). -/
theorem no_truncation_counterexample :
    (mergeAndRankResults [itT, itT2, itI, itB]).length = 4 ∧
    (dedupResults [itT, itT2, itI, itB]).length = 4 := by
  refine ⟨by decide, by decide⟩

/-- C5 (amended): `merge_and_rank_results` takes no `k_total` cap and
performs no truncation — its output is a permutation of the de-duplicated
pool, whatever that pool's size. -/
theorem mergeAndRank_no_truncation (results : List RItem) :
    List.Perm (mergeAndRankResults results) (dedupResults results) ∧
    (mergeAndRankResults results).length = (dedupResults results).length := by
  have hperm := mergeAndRank_perm_dedup results
  exact ⟨hperm, hperm.length_eq⟩

/-! ### Map-commutation lemmas for the conservation claim -/

theorem retag_content (r : RItem) : (retagUnknown r).content = r.content := by
  unfold retagUnknown
  split <;> rfl

theorem retag_score (r : RItem) : (retagUnknown r).score = r.score := by
  unfold retagUnknown
  split <;> rfl

theorem retag_bucketKey (r : RItem) : bucketKey (retagUnknown r) = bucketKey r := by
  unfold retagUnknown bucketKey
  split
  · rfl
  · simp

theorem dedupGo_map {f : RItem → RItem} (hc : ∀ a, (f a).content = a.content)
    (seen : List String) (l : List RItem) :
    dedupGo seen (l.map f) = (dedupGo seen l).map f := by
  induction l generalizing seen with
  | nil => rfl
  | cons r rs ih =>
    simp only [List.map_cons, dedupGo, hc]
    split
    · exact ih seen
    · simp [ih, hc]

theorem bucketOf_map {f : RItem → RItem} (hk : ∀ a, bucketKey (f a) = bucketKey a)
    (key : String) (l : List RItem) :
    bucketOf key (l.map f) = (bucketOf key l).map f := by
  unfold bucketOf
  rw [List.filter_map]
  congr 1
  apply List.filter_congr
  intro a _
  simp [Function.comp, hk]

theorem orderedInsert_map {f : RItem → RItem} (hs : ∀ a, (f a).score = a.score)
    (a : RItem) (l : List RItem) :
    List.orderedInsert scoreLE (f a) (l.map f) =
      (List.orderedInsert scoreLE a l).map f := by
  induction l with
  | nil => rfl
  | cons b l ih =>
    simp only [List.map_cons, List.orderedInsert]
    by_cases h : scoreLE a b
    · rw [if_pos (by simpa [scoreLE, hs] using h), if_pos h]
      simp
    · rw [if_neg (by simpa [scoreLE, hs] using h), if_neg h]
      simp [ih]

theorem insertionSort_map {f : RItem → RItem} (hs : ∀ a, (f a).score = a.score)
    (l : List RItem) :
    List.insertionSort scoreLE (l.map f) = (List.insertionSort scoreLE l).map f := by
  induction l with
  | nil => rfl
  | cons a l ih =>
    simp only [List.map_cons, List.insertionSort, ih]
    exact orderedInsert_map hs a _

theorem pickAt_map (f : RItem → RItem) (l : List RItem) (i : Nat) :
    pickAt (l.map f) i = (pickAt l i).map f := by
  simp only [pickAt, List.getElem?_map]
  cases l[i]? <;> simp

theorem interleave3_map (f : RItem → RItem) (t im tb : List RItem) :
    interleave3 (t.map f) (im.map f) (tb.map f) = (interleave3 t im tb).map f := by
  unfold interleave3
  simp only [List.length_map, List.map_flatMap, pickAt_map, List.map_append]

/-- `merge_and_rank_results` commutes with any per-item rewrite that
preserves content, score and bucket key. -/
theorem mergeAndRank_map {f : RItem → RItem}
    (hc : ∀ a, (f a).content = a.content) (hs : ∀ a, (f a).score = a.score)
    (hk : ∀ a, bucketKey (f a) = bucketKey a) (results : List RItem) :
    mergeAndRankResults (results.map f) = (mergeAndRankResults results).map f := by
  simp only [mergeAndRankResults, dedupResults]
  rw [dedupGo_map hc, bucketOf_map hk, bucketOf_map hk, bucketOf_map hk,
    insertionSort_map hs, insertionSort_map hs, insertionSort_map hs,
    interleave3_map]

/-- C10: `merge_and_rank_results` conserves items — every output element
is an input element, every content value of the input appears exactly once
in the output, and an item with an unknown modality tag is not dropped:
it is handled exactly as if its modality were rewritten to `"text"`
(landing in the text bucket and being interleaved as a text result). -/
theorem mergeAndRank_conserves (results : List RItem) :
    (∀ x ∈ mergeAndRankResults results, x ∈ results) ∧
    (∀ r ∈ results, ∃ x ∈ mergeAndRankResults results, x.content = r.content) ∧
    ((mergeAndRankResults results).map RItem.content).Nodup ∧
    (∀ x : RItem, x.modality ≠ "text" → x.modality ≠ "image" →
      x.modality ≠ "table" → bucketKey x = "text") ∧
    mergeAndRankResults (results.map retagUnknown) =
      (mergeAndRankResults results).map retagUnknown := by
  have hperm := mergeAndRank_perm_dedup results
  refine ⟨?_, ?_, ?_, ?_, ?_⟩
  · intro x hx
    exact dedupGo_subset (hperm.subset hx)
  · intro r hr
    obtain ⟨u, hu, hcu⟩ := dedupGo_covers hr (List.not_mem_nil r.content)
    exact ⟨u, hperm.symm.subset hu, hcu⟩
  · exact ((hperm.map RItem.content).nodup_iff).mpr (dedupGo_nodup [] results)
  · intro x h1 h2 h3
    unfold bucketKey
    rw [if_neg]
    simp [h1, h2, h3]
  · exact mergeAndRank_map retag_content retag_score retag_bucketKey results

/-- Witness for C10 at a concrete input containing a `"video"` item: the
video item survives, the output is made of input items only, and merging
commutes with the retagging rewrite. -/
theorem mergeAndRank_conserves_witness :
    (itT ∈ [itT, itV]) ∧
    (∃ x ∈ mergeAndRankResults [itT, itV], x.content = itV.content) ∧
    bucketKey itV = "text" ∧
    mergeAndRankResults ([itT, itV].map retagUnknown) =
      (mergeAndRankResults [itT, itV]).map retagUnknown := by
  obtain ⟨h1, h2, _, h4, h5⟩ := mergeAndRank_conserves [itT, itV]
  refine ⟨?_, h2 itV (by decide), ?_, h5⟩
  · exact h1 itT (by decide)
  · exact h4 itV (by decide) (by decide) (by decide)

/-! ### Classifier fail-open properties -/

/-- A query type is one of the three concrete modalities. -/
def isConcrete (t : QueryType) : Prop :=
  t = QueryType.TEXT ∨ t = QueryType.IMAGE ∨ t = QueryType.TABLE

theorem allThree_ne : allThree ≠ [] := by decide

theorem allThree_concrete : ∀ t ∈ allThree, isConcrete t := by
  intro t ht
  fin_cases ht <;> simp [isConcrete]

theorem qtOf_concrete {s : String} {q : QueryType} (h : qtOf s = some q) :
    isConcrete q := by
  unfold qtOf at h
  split at h <;> simp_all [isConcrete]

theorem loopTypes_sound (elems : List JVal) (acc : List QueryType)
    (hacc : ∀ t ∈ acc, isConcrete t) :
    loopTypes elems acc ≠ [] ∧ ∀ t ∈ loopTypes elems acc, isConcrete t := by
  induction elems generalizing acc with
  | nil =>
    rw [loopTypes]
    split
    · exact ⟨allThree_ne, allThree_concrete⟩
    · exact ⟨by assumption, hacc⟩
  | cons j rest ih =>
    match j with
    | JVal.strV t =>
      rw [loopTypes]
      split
      · exact ⟨allThree_ne, allThree_concrete⟩
      · split
        · rename_i q hq
          apply ih
          intro u hu
          rcases List.mem_append.mp hu with hu | hu
          · exact hacc u hu
          · have huq : u = q := by simpa using hu
            exact huq ▸ qtOf_concrete hq
        · exact ih acc hacc
    | JVal.null => exact ⟨allThree_ne, allThree_concrete⟩
    | JVal.boolV b => exact ⟨allThree_ne, allThree_concrete⟩
    | JVal.numV q => exact ⟨allThree_ne, allThree_concrete⟩
    | JVal.arrV xs => exact ⟨allThree_ne, allThree_concrete⟩
    | JVal.objV kvs => exact ⟨allThree_ne, allThree_concrete⟩

theorem loopTypes_no_valid (elems : List JVal)
    (h : ∀ j ∈ elems, ∀ s, j = JVal.strV s → qtOf (pyUpper s) = none) :
    loopTypes elems [] = allThree := by
  induction elems with
  | nil => rfl
  | cons j rest ih =>
    match j with
    | JVal.strV t =>
      rw [loopTypes]
      split
      · rfl
      · rw [h (JVal.strV t) (List.mem_cons_self _ _) t rfl]
        exact ih (fun j hj => h j (List.mem_cons_of_mem _ hj))
    | JVal.null => rfl
    | JVal.boolV b => rfl
    | JVal.numV q => rfl
    | JVal.arrV xs => rfl
    | JVal.objV kvs => rfl

theorem classifyParsed_sound (v : JVal) :
    classifyParsed v ≠ [] ∧ ∀ t ∈ classifyParsed v, isConcrete t := by
  match v with
  | JVal.objV kvs =>
    rw [classifyParsed]
    match objGet kvs "types" with
    | none => exact ⟨allThree_ne, allThree_concrete⟩
    | some (JVal.arrV elems) =>
      exact loopTypes_sound elems [] (by intro t ht; simp at ht)
    | some (JVal.objV kvs2) =>
      exact loopTypes_sound _ [] (by intro t ht; simp at ht)
    | some JVal.null => exact ⟨allThree_ne, allThree_concrete⟩
    | some (JVal.boolV b) => exact ⟨allThree_ne, allThree_concrete⟩
    | some (JVal.numV q) => exact ⟨allThree_ne, allThree_concrete⟩
    | some (JVal.strV t) => exact ⟨allThree_ne, allThree_concrete⟩
  | JVal.null => exact ⟨allThree_ne, allThree_concrete⟩
  | JVal.boolV b => exact ⟨allThree_ne, allThree_concrete⟩
  | JVal.numV q => exact ⟨allThree_ne, allThree_concrete⟩
  | JVal.strV t => exact ⟨allThree_ne, allThree_concrete⟩
  | JVal.arrV xs => exact ⟨allThree_ne, allThree_concrete⟩

theorem classifyParsed_types_arr {kvs : List (String × JVal)} {elems : List JVal}
    (h : objGet kvs "types" = some (JVal.arrV elems)) :
    classifyParsed (JVal.objV kvs) = loopTypes elems [] := by
  rw [classifyParsed, h]

theorem classifyQuery_ok {query : String} {llm : String → Except String String}
    {raw : String} (h : llm (classificationPrompt query) = Except.ok raw) :
    classifyQuery query llm =
      match extractJsonCandidate raw with
      | none => allThree
      | some candidate =>
        match jsonLoads candidate with
        | none => allThree
        | some v => classifyParsed v := by
  rw [classifyQuery, h]

/-- C2: for every query and LLM stub, `classify_query` returns a
non-empty list of concrete modality tags, and on every failure — the LLM
call raising, no JSON object in the response, the candidate not parsing
as JSON, or no valid modality name among the parsed type strings — it
returns exactly all three modalities (fail-open, never fail-closed). -/
theorem classifyQuery_fail_open (query : String)
    (llm : String → Except String String) :
    (classifyQuery query llm ≠ [] ∧
      ∀ t ∈ classifyQuery query llm, isConcrete t) ∧
    (∀ e, llm (classificationPrompt query) = Except.error e →
      classifyQuery query llm = allThree) ∧
    (∀ raw, llm (classificationPrompt query) = Except.ok raw →
      extractJsonCandidate raw = none → classifyQuery query llm = allThree) ∧
    (∀ raw candidate, llm (classificationPrompt query) = Except.ok raw →
      extractJsonCandidate raw = some candidate → jsonLoads candidate = none →
      classifyQuery query llm = allThree) ∧
    (∀ raw candidate kvs elems,
      llm (classificationPrompt query) = Except.ok raw →
      extractJsonCandidate raw = some candidate →
      jsonLoads candidate = some (JVal.objV kvs) →
      objGet kvs "types" = some (JVal.arrV elems) →
      (∀ j ∈ elems, ∀ s, j = JVal.strV s → qtOf (pyUpper s) = none) →
      classifyQuery query llm = allThree) := by
  refine ⟨?_, ?_, ?_, ?_, ?_⟩
  · rw [classifyQuery]
    split
    · exact ⟨allThree_ne, allThree_concrete⟩
    · split
      · exact ⟨allThree_ne, allThree_concrete⟩
      · split
        · exact ⟨allThree_ne, allThree_concrete⟩
        · exact classifyParsed_sound _
  · intro e he
    rw [classifyQuery, he]
  · intro raw hraw hext
    rw [classifyQuery_ok hraw, hext]
  · intro raw candidate hraw hext hload
    rw [classifyQuery_ok hraw, hext]
    show (match jsonLoads candidate with
          | none => allThree
          | some v => classifyParsed v) = allThree
    rw [hload]
  · intro raw candidate kvs elems hraw hext hload htypes hnone
    rw [classifyQuery_ok hraw, hext]
    show (match jsonLoads candidate with
          | none => allThree
          | some v => classifyParsed v) = allThree
    rw [hload]
    show classifyParsed (JVal.objV kvs) = allThree
    rw [classifyParsed_types_arr htypes]
    exact loopTypes_no_valid elems hnone

/-- Witness for C2 at three concrete stubs: an LLM that raises, a
response with no JSON object, and a parsed response naming no valid
modality all yield exactly the three modalities. -/
theorem classifyQuery_fail_open_witness :
    classifyQuery "q" (fun _ => Except.error "APIConnectionError") = allThree ∧
    classifyQuery "q" (fun _ => Except.ok "I cannot classify this.") = allThree ∧
    classifyQuery "q" (fun _ => Except.ok "\x7b\"types\": [\"FOO\"]\x7d") = allThree := by
  refine ⟨(classifyQuery_fail_open "q" _).2.1 "APIConnectionError" rfl,
    (classifyQuery_fail_open "q" _).2.2.1 "I cannot classify this." rfl (by rfl),
    (classifyQuery_fail_open "q" _).2.2.2.2 "\x7b\"types\": [\"FOO\"]\x7d"
      "\x7b\"types\": [\"FOO\"]\x7d" [("types", JVal.arrV [JVal.strV "FOO"])]
      [JVal.strV "FOO"] rfl (by rfl) (by rfl) (by rfl) ?_⟩
  intro j hj s hs
  rcases List.mem_singleton.mp hj with rfl
  injection hs with h
  subst h
  rfl

/-! ### retrieve_all failure behaviour -/

/-- The text hit served by the healthy text stub. -/
def hitT : TextHit :=
  { pageContent := "Revenue was 5M", metadata := [("chunk_id", "0")], score := 1 }

/-- A healthy one-hit text stub. -/
def okTextStub : SearchStub TextHit :=
  some (fun _ _ => Except.ok [hitT])

/-- An image stub whose search raises. -/
def failingImageStub : SearchStub ImageHit :=
  some (fun _ _ => Except.error "embedding backend unreachable")

/-- The image hit served by the healthy image stub. -/
def hitI : ImageHit :=
  { caption := "Bar chart shows Q4 peak", imagePath := "img.png",
    imageType := "chart", score := 3 }

/-- A healthy image stub. -/
def okImageStub : SearchStub ImageHit :=
  some (fun _ _ => Except.ok [hitI])

/-- The table hit served by the healthy table stub. -/
def hitB : TableHit :=
  { description := "Quarterly revenue table", tableId := "t1",
    csvPath := "t1.csv", page := "2", score := 2 }

/-- A healthy one-hit table stub. -/
def okTableStub : SearchStub TableHit :=
  some (fun _ _ => Except.ok [hitB])

/-- A table stub whose search raises. -/
def failingTableStub : SearchStub TableHit :=
  some (fun _ _ => Except.error "table index corrupt")

/-- C4 counterexample: all three modalities selected, text and table
stubs healthy, image stub raising — `retrieve_all` propagates the
exception instead of returning the healthy items. -/
theorem retrieveAll_abort_counterexample :
    retrieveAll "q" allThree okTextStub failingImageStub okTableStub 3 =
      Except.error "embedding backend unreachable" := by
  rfl

/-- C4 (amended): `retrieve_all` contains no per-index exception
handling.  The three search blocks run in order; the first one that
raises aborts the whole call with that exception (later indexes are not
searched and earlier healthy results are discarded), and only when every
selected search succeeds is the concatenation of the three blocks'
items returned. -/
theorem retrieveAll_propagates (query : String) (k : Nat)
    (qt : List QueryType) (ti : SearchStub TextHit) (ii : SearchStub ImageHit)
    (bi : SearchStub TableHit) :
    (∀ e, textStage qt ti query k = Except.error e →
      retrieveAll query qt ti ii bi k = Except.error e) ∧
    (∀ l1 e, textStage qt ti query k = Except.ok l1 →
      imageStage qt ii query k = Except.error e →
      retrieveAll query qt ti ii bi k = Except.error e) ∧
    (∀ l1 l2 e, textStage qt ti query k = Except.ok l1 →
      imageStage qt ii query k = Except.ok l2 →
      tableStage qt bi query k = Except.error e →
      retrieveAll query qt ti ii bi k = Except.error e) ∧
    (∀ l1 l2 l3, textStage qt ti query k = Except.ok l1 →
      imageStage qt ii query k = Except.ok l2 →
      tableStage qt bi query k = Except.ok l3 →
      retrieveAll query qt ti ii bi k = Except.ok (l1 ++ l2 ++ l3)) := by
  refine ⟨?_, ?_, ?_, ?_⟩
  · intro e h1
    simp only [retrieveAll, h1]
    rfl
  · intro l1 e h1 h2
    simp only [retrieveAll, h1, h2]
    rfl
  · intro l1 l2 e h1 h2 h3
    simp only [retrieveAll, h1, h2, h3]
    rfl
  · intro l1 l2 l3 h1 h2 h3
    simp only [retrieveAll, h1, h2, h3]
    rfl

/-- Witness for C4 (amended) at concrete stubs: a failing table index
aborts retrieval even though text and image succeeded, and with all
stubs healthy the three hit lists are concatenated. -/
theorem retrieveAll_propagates_witness :
    retrieveAll "q" allThree okTextStub okImageStub failingTableStub 3 =
      Except.error "table index corrupt" ∧
    retrieveAll "q" allThree okTextStub okImageStub okTableStub 3 =
      Except.ok [textHitItem hitT, imageHitItem hitI, tableHitItem hitB] := by
  constructor
  · exact (retrieveAll_propagates "q" 3 allThree okTextStub okImageStub
      failingTableStub).2.2.1 _ _ "table index corrupt" rfl rfl rfl
  · exact (retrieveAll_propagates "q" 3 allThree okTextStub okImageStub
      okTableStub).2.2.2 _ _ _ rfl rfl rfl

/-! ### Context formatter -/

/-- The separation loop, run from any starting accumulator, appends to
each accumulator list exactly the in-order per-modality projection of the
input. -/
theorem genFold_go (flag : Bool) (l : List RItem) :
    ∀ acc : GenAcc, l.foldl (genStep flag) acc =
      { textChunks := acc.textChunks ++ genTexts l,
        imageCaptions := acc.imageCaptions ++ genImages l,
        tableDescriptions := acc.tableDescriptions ++ genTables l,
        imageRefs := acc.imageRefs ++ (if flag then genRefs l else []) } := by
  induction l with
  | nil => intro acc; simp [genTexts, genImages, genTables, genRefs]
  | cons r l ih =>
    intro acc
    rw [List.foldl_cons, ih]
    unfold genStep genTexts genImages genTables genRefs
    by_cases ht : r.modality = "text"
    · simp [ht, List.filter_cons]
    · by_cases hi : r.modality = "image"
      · by_cases hf : flag
        · by_cases hp : mget r.metadata "image_path" "" = ""
          · simp [ht, hi, hf, hp, List.filter_cons]
          · simp [ht, hi, hf, hp, List.filter_cons]
        · simp [ht, hi, hf, List.filter_cons]
      · by_cases hb : r.modality = "table"
        · simp [ht, hi, hb, List.filter_cons]
        · simp [ht, hi, hb, List.filter_cons]

/-- C6 counterexample: the formatter re-groups by modality.  The prompts
built for `[image, text]` and `[text, image]` coincide although the two
items have different contents and modalities, so the rendering cannot
follow the ranked order of the input list. -/
theorem formatter_order_counterexample :
    buildGenPrompt "q" [itI, itT] true = buildGenPrompt "q" [itT, itI] true ∧
    itI.content ≠ itT.content ∧ itI.modality ≠ itT.modality :=
  ⟨rfl, by decide, by decide⟩

/-- C6 (amended): the formatter is total but re-groups: the prompt is
built from three fixed per-modality sections (`[TEXT]`, then
`[IMAGE DESCRIPTIONS]`, then `[TABLE DATA]`), each holding that
modality's stripped contents in input order, with an explicit
"No ... context available." sentinel for each empty section (in
particular for the empty result list). -/
theorem formatter_sections (flag : Bool) (results : List RItem) :
    (genFold flag results).textChunks = genTexts results ∧
    (genFold flag results).imageCaptions = genImages results ∧
    (genFold flag results).tableDescriptions = genTables results ∧
    (genFold flag results).imageRefs = (if flag then genRefs results else []) ∧
    (genTexts results = [] →
      textSection flag results = "No text context available.") ∧
    (genTexts results ≠ [] →
      textSection flag results = String.intercalate "\n\n" (genTexts results)) ∧
    textSection flag [] = "No text context available." ∧
    imageSection flag [] = "No image context available." ∧
    tableSection flag [] = "No table context available." := by
  have hgo := genFold_go flag results ⟨[], [], [], []⟩
  have h1 : (genFold flag results).textChunks = genTexts results := by
    rw [genFold, hgo]; simp
  have h2 : (genFold flag results).imageCaptions = genImages results := by
    rw [genFold, hgo]; simp
  have h3 : (genFold flag results).tableDescriptions = genTables results := by
    rw [genFold, hgo]; simp
  have h4 : (genFold flag results).imageRefs = (if flag then genRefs results else []) := by
    rw [genFold, hgo]; simp
  refine ⟨h1, h2, h3, h4, ?_, ?_, ?_, ?_, ?_⟩
  · intro hemp
    rw [textSection]
    rw [h1, if_pos hemp]
  · intro hne
    rw [textSection]
    rw [h1, if_neg hne]
  · rfl
  · rfl
  · rfl

/-- Witness for C6 (amended) at concrete inputs: a list with no text
item renders the text sentinel, and a list with a text item renders the
joined text contents. -/
theorem formatter_sections_witness :
    textSection true [itI] = "No text context available." ∧
    textSection true [itT] = String.intercalate "\n\n" (genTexts [itT]) :=
  ⟨(formatter_sections true [itI]).2.2.2.2.1 (by decide),
   (formatter_sections true [itT]).2.2.2.2.2.1 (by decide)⟩

/-- C7: when every selected index returns zero items the retriever
returns the empty result set rather than raising; merging the empty set
is the empty list; each section of the empty set formats to its
documented "No ... context available." sentinel; and the generator still
returns a plain string for the empty set. -/
theorem empty_everything (query : String) (k : Nat) :
    (∀ qt : List QueryType,
      retrieveAll query qt (some (fun _ _ => Except.ok []))
        (some (fun _ _ => Except.ok [])) (some (fun _ _ => Except.ok [])) k =
      Except.ok []) ∧
    mergeAndRankResults [] = [] ∧
    (∀ flag : Bool,
      textSection flag [] = "No text context available." ∧
      imageSection flag [] = "No image context available." ∧
      tableSection flag [] = "No table context available.") ∧
    (∀ (flag : Bool) (ans : String),
      generateAnswer query [] (fun _ => Except.ok ans) flag = pyStrip ans) := by
  refine ⟨?_, rfl, ?_, ?_⟩
  · intro qt
    have hts : textStage qt (some (fun _ _ => Except.ok [])) query k =
        Except.ok [] := by
      unfold textStage
      split <;> rfl
    have his : imageStage qt (some (fun _ _ => Except.ok [])) query k =
        Except.ok [] := by
      unfold imageStage
      split <;> rfl
    have hbs : tableStage qt (some (fun _ _ => Except.ok [])) query k =
        Except.ok [] := by
      unfold tableStage
      split <;> rfl
    simp only [retrieveAll, hts, his, hbs]
    rfl
  · intro flag
    exact ⟨rfl, rfl, rfl⟩
  · intro flag ans
    simp [generateAnswer, genFold]

/-! ### Score normalization bounds (spec §4.3 step 2) -/

theorem foldr_min_le {d0 d : Rat} {rest : List Rat} (hd : d ∈ d0 :: rest) :
    rest.foldr min d0 ≤ d := by
  induction rest generalizing d0 with
  | nil =>
    rw [List.mem_singleton] at hd
    simp [hd]
  | cons a rest ih =>
    simp only [List.foldr_cons]
    rcases List.mem_cons.mp hd with h | h
    · exact le_trans (min_le_right _ _) (ih (h ▸ List.mem_cons_self d0 rest))
    · rcases List.mem_cons.mp h with h | h
      · exact h ▸ min_le_left _ _
      · exact le_trans (min_le_right _ _) (ih (List.mem_cons_of_mem _ h))

theorem le_foldr_max {d0 d : Rat} {rest : List Rat} (hd : d ∈ d0 :: rest) :
    d ≤ rest.foldr max d0 := by
  induction rest generalizing d0 with
  | nil =>
    rw [List.mem_singleton] at hd
    simp [hd]
  | cons a rest ih =>
    simp only [List.foldr_cons]
    rcases List.mem_cons.mp hd with h | h
    · exact le_trans (ih (h ▸ List.mem_cons_self d0 rest)) (le_max_right _ _)
    · rcases List.mem_cons.mp h with h | h
      · exact h ▸ le_max_left _ _
      · exact le_trans (ih (List.mem_cons_of_mem _ h)) (le_max_right _ _)

theorem foldr_min_const {c d0 : Rat} {rest : List Rat} (h0 : d0 = c)
    (h : ∀ x ∈ rest, x = c) : rest.foldr min d0 = c := by
  induction rest with
  | nil => exact h0
  | cons a rest ih =>
    rw [List.foldr_cons, h a (List.mem_cons_self _ _),
      ih (fun x hx => h x (List.mem_cons_of_mem _ hx)), min_self]

theorem foldr_max_const {c d0 : Rat} {rest : List Rat} (h0 : d0 = c)
    (h : ∀ x ∈ rest, x = c) : rest.foldr max d0 = c := by
  induction rest with
  | nil => exact h0
  | cons a rest ih =>
    rw [List.foldr_cons, h a (List.mem_cons_self _ _),
      ih (fun x hx => h x (List.mem_cons_of_mem _ hx)), max_self]

/-- C8 (spec-modelled, §4.3 step 2): for every non-empty batch, min-max
normalization keeps every normalized score inside `[0, 1]`; when the
extrema differ the score is literally `1 - (d - d_min)/(d_max - d_min)`;
and an all-tied batch (in particular a singleton) scores `1.0`
everywhere. -/
theorem normalizeBatch_bounds (batch : List Rat) (h : batch ≠ []) :
    (∀ s ∈ normalizeBatch batch, 0 ≤ s ∧ s ≤ 1) ∧
    (∀ dmin dmax d : Rat, dmax ≠ dmin →
      normalizedScore dmin dmax d = 1 - (d - dmin) / (dmax - dmin)) ∧
    ((∀ x ∈ batch, ∀ y ∈ batch, x = y) → ∀ s ∈ normalizeBatch batch, s = 1) := by
  refine ⟨?_, ?_, ?_⟩
  · intro s hs
    match batch, h with
    | d0 :: rest, _ =>
      rw [normalizeBatch] at hs
      obtain ⟨d, hd, hds⟩ := List.mem_map.mp hs
      set dmin := rest.foldr min d0 with hdmin
      set dmax := rest.foldr max d0 with hdmax
      have hlo : dmin ≤ d := foldr_min_le hd
      have hhi : d ≤ dmax := le_foldr_max hd
      rw [normalizedScore] at hds
      by_cases heq : dmax = dmin
      · rw [if_pos heq] at hds
        subst hds
        norm_num
      · rw [if_neg heq] at hds
        have hlt : dmin < dmax := lt_of_le_of_ne (le_trans hlo hhi) (Ne.symm heq)
        have hq0 : 0 ≤ (d - dmin) / (dmax - dmin) :=
          div_nonneg (by linarith) (by linarith)
        have hq1 : (d - dmin) / (dmax - dmin) ≤ 1 :=
          (div_le_one (by linarith)).mpr (by linarith)
        subst hds
        constructor <;> linarith
  · intro dmin dmax d hne
    rw [normalizedScore, if_neg hne]
  · intro hall s hs
    match batch, h with
    | d0 :: rest, _ =>
      rw [normalizeBatch] at hs
      obtain ⟨d, hd, hds⟩ := List.mem_map.mp hs
      have hc : ∀ x ∈ rest, x = d0 := fun x hx =>
        hall x (List.mem_cons_of_mem _ hx) d0 (List.mem_cons_self _ _)
      rw [normalizedScore, foldr_min_const rfl hc, foldr_max_const rfl hc,
        if_pos rfl] at hds
      exact hds.symm

/-- Witness for C8 at the batch `[1, 3]`: the score normalized for raw
distance `3` lies in `[0, 1]`, and the singleton batch `[3]` normalizes
to `1`. -/
theorem normalizeBatch_bounds_witness :
    (0 ≤ normalizedScore 1 3 3 ∧ normalizedScore 1 3 3 ≤ 1) ∧
    (∀ s ∈ normalizeBatch [3], s = 1) := by
  constructor
  · refine (normalizeBatch_bounds [1, 3] (by decide)).1 (normalizedScore 1 3 3) ?_
    show normalizedScore 1 3 3 ∈ [normalizedScore 1 3 1, normalizedScore 1 3 3]
    simp
  · refine (normalizeBatch_bounds [3] (by decide)).2.2 ?_
    intro x hx y hy
    rw [List.mem_singleton] at hx hy
    rw [hx, hy]

/-! ### Generator exception handling -/

/-- C9: when the LLM invocation raises, `generate_answer` catches the
exception and returns the `"[generator] LLM call failed: ..."` message
string (followed only by any requested image-reference block) — the
exception is never propagated to the caller. -/
theorem generateAnswer_catches (query : String) (results : List RItem)
    (e : String) (flag : Bool) :
    ∃ suffix : String,
      generateAnswer query results (fun _ => Except.error e) flag =
        "[generator] LLM call failed: " ++ e ++ suffix := by
  simp only [generateAnswer]
  by_cases hc : flag ∧ (genFold flag results).imageRefs ≠ []
  · refine ⟨"\n\n" ++ String.intercalate "\n"
      (((genFold flag results).imageRefs).map (fun p => "See image: " ++ p)), ?_⟩
    rw [if_pos hc]
    simp [String.append_assoc]
  · refine ⟨"", ?_⟩
    rw [if_neg hc]
    simp

end MultimodalRag
